import Mathlib

/-!
# VideoRAG orchestration core: a shallow embedding

This file embeds the session/process orchestration layer of the VideoRAG
desktop backend in Lean: the JSON status store (`write_status_json`,
`update_session_status`), the process manager (`start_video_indexing`,
`terminate_process`), the speech-to-text and captioning pipeline stages
(`speech_to_text_online`, `segment_caption`, `merge_segment_information`),
the idempotent `insert_one_video` front door, the shared ImageBind model
manager's encode operations, and a small interleaving semantics for the
manager's mutual-exclusion lock.  Theorems at the end of the file settle
the specification claims against these definitions.
-/

namespace VideoRAG

/-! ## Definitions -/

def alookup {κ α : Type} [DecidableEq κ] : List (κ × α) → κ → Option α
  | [], _ => none
  | (k', v) :: rest, k => if k' = k then some v else alookup rest k

def aset {κ α : Type} [DecidableEq κ] : List (κ × α) → κ → α → List (κ × α)
  | [], k, v => [(k, v)]
  | (k', v') :: rest, k, v =>
      if k' = k then (k, v) :: rest else (k', v') :: aset rest k v

def aerase {κ α : Type} [DecidableEq κ] (l : List (κ × α)) (k : κ) : List (κ × α) :=
  l.filter (fun p => p.1 ≠ k)

abbrev Dict := List (String × String)

def dget (d : Dict) (k : String) : Option String := alookup d k

def dupdate (d : Dict) (patch : Dict) : Dict :=
  patch.foldl (fun acc kv => aset acc kv.1 kv.2) d

structure StatusDoc where
  indexing_status : Option Dict
  query_status : Option Dict
  indexed_videos : Option (List String)
  created_at : Option Nat
  last_updated : Option Nat
deriving DecidableEq

def emptyDoc : StatusDoc :=
  { indexing_status := none, query_status := none, indexed_videos := none,
    created_at := none, last_updated := none }

inductive Channel
  | indexing
  | query
deriving DecidableEq

def update_session_status (now : Nat) (chan : Channel) (patch : Dict) (doc : StatusDoc) :
    StatusDoc :=
  match chan with
  | Channel.indexing =>
      { doc with
        indexing_status := some (dupdate (doc.indexing_status.getD []) patch),
        last_updated := some now }
  | Channel.query =>
      { doc with
        query_status := some (dupdate (doc.query_status.getD []) patch),
        last_updated := some now }

inductive TempFile
  | truncated
  | complete (d : StatusDoc)
deriving DecidableEq

structure FileState where
  target : Option StatusDoc
  temp : Option TempFile
deriving DecidableEq

inductive WriteOutcome
  | success
  | dumpFailNothing
  | dumpFailMid
  | renameFail
deriving DecidableEq

def dump_temp (fs : FileState) (d : StatusDoc) (o : WriteOutcome) :
    FileState × Except String Unit :=
  match o with
  | WriteOutcome.dumpFailNothing => (fs, Except.error "open failed")
  | WriteOutcome.dumpFailMid =>
      ({ fs with temp := some TempFile.truncated }, Except.error "dump failed")
  | _ => ({ fs with temp := some (TempFile.complete d) }, Except.ok ())

def rename_temp (fs : FileState) (d : StatusDoc) (o : WriteOutcome) :
    FileState × Except String Unit :=
  match o with
  | WriteOutcome.renameFail => (fs, Except.error "rename failed")
  | _ => ({ target := some d, temp := none }, Except.ok ())

def remove_temp_if_present (fs : FileState) : FileState :=
  { fs with temp := none }

def write_status_json (fs : FileState) (d : StatusDoc) (o : WriteOutcome) :
    FileState × Except String Unit :=
  match dump_temp fs d o with
  | (fs1, Except.error e) => (remove_temp_if_present fs1, Except.error e)
  | (fs1, Except.ok _) =>
      match rename_temp fs1 d o with
      | (fs2, Except.error e) => (remove_temp_if_present fs2, Except.error e)
      | (fs2, Except.ok _) => (fs2, Except.ok ())

structure ProcHandle where
  pid : Nat
  ptype : String
  started_at : Nat
deriving DecidableEq

structure PMState where
  config_set : Bool
  running_processes : List (String × ProcHandle)
deriving DecidableEq

structure OSState where
  alive : List Nat
  docs : List (String × StatusDoc)
deriving DecidableEq

def initial_indexing_status (numVideos : Nat) : Dict :=
  [("status", "processing"), ("message", "Initializing AI Assistant..."),
   ("current_step", "Initializing"), ("total_videos", toString numVideos),
   ("processed_videos", "0")]

def initial_status_doc (numVideos now : Nat) : StatusDoc :=
  { indexing_status := some (initial_indexing_status numVideos),
    query_status := none,
    indexed_videos := some [],
    created_at := some now,
    last_updated := none }

def start_video_indexing (now newPid : Nat) (chat : String) (videos : List String)
    (pm : PMState) (os : OSState) : PMState × OSState × Bool :=
  if pm.config_set then
    let os1 := { os with docs := aset os.docs chat (initial_status_doc videos.length now) }
    let os2 := { os1 with alive := newPid :: os1.alive }
    let pm1 := { pm with
      running_processes :=
        aset pm.running_processes chat { pid := newPid, ptype := "video_indexing", started_at := now } }
    (pm1, os2, true)
  else (pm, os, false)

inductive TermEvent
  | sentTerm (pid : Nat)
  | sentKill (pid : Nat)
deriving DecidableEq

def terminated_patch : Dict :=
  [("status", "terminated"), ("message", "Process terminated by user"),
   ("current_step", "Terminated")]

def mark_terminated (now : Nat) (chat : String) (pm : PMState) (os : OSState) : OSState :=
  if pm.config_set then
    let doc := (alookup os.docs chat).getD emptyDoc
    { os with docs := aset os.docs chat (update_session_status now Channel.indexing terminated_patch doc) }
  else os

def terminate_process (now : Nat) (respondsToTerm : Nat → Bool) (chat : String)
    (pm : PMState) (os : OSState) :
    PMState × OSState × List String × List TermEvent :=
  match alookup pm.running_processes chat with
  | some h =>
      let step :=
        if h.pid ∈ os.alive then
          if respondsToTerm h.pid then
            (os.alive.filter (fun p => p ≠ h.pid), [TermEvent.sentTerm h.pid])
          else
            (os.alive.filter (fun p => p ≠ h.pid),
             [TermEvent.sentTerm h.pid, TermEvent.sentKill h.pid])
        else (os.alive, [])
      let pm1 := { pm with running_processes := aerase pm.running_processes chat }
      let os1 := mark_terminated now chat pm1 { os with alive := step.1 }
      (pm1, os1, [chat], step.2)
  | none =>
      let os1 := mark_terminated now chat pm os
      (pm, os1, [], [])

inductive ASROutcome
  | raises
  | noOutput
  | sentences (texts : List String)
deriving DecidableEq

def py_strip (s : String) : String :=
  String.mk
    (((s.data.dropWhile Char.isWhitespace).reverse.dropWhile Char.isWhitespace).reverse)

def asr_join (texts : List String) : String :=
  py_strip (texts.foldl (fun acc t => acc ++ t ++ "\n") "")

def process_single_segment (o : ASROutcome) : Except String String :=
  match o with
  | ASROutcome.raises => Except.error "ASR call raised"
  | ASROutcome.noOutput => Except.ok ""
  | ASROutcome.sentences ts => Except.ok (asr_join ts)

def speech_to_text_online (segs : List (Nat × ASROutcome)) : List (Nat × String) :=
  segs.filterMap (fun p =>
    match process_single_segment p.2 with
    | Except.ok t => some (p.1, t)
    | Except.error _ => none)

inductive CaptionOutcome
  | raises
  | returnsEmpty
  | returns (s : String)
deriving DecidableEq

def clean_caption (s : String) : String :=
  (s.replace "\n" "").replace "<|endoftext|>" ""

def process_single_caption (o : CaptionOutcome) : String :=
  match o with
  | CaptionOutcome.raises => ""
  | CaptionOutcome.returnsEmpty => ""
  | CaptionOutcome.returns s => clean_caption s

def exceptMapM {α β : Type} (f : α → Except String β) : List α → Except String (List β)
  | [] => Except.ok []
  | x :: xs =>
      match f x with
      | Except.error e => Except.error e
      | Except.ok b =>
          match exceptMapM f xs with
          | Except.error e => Except.error e
          | Except.ok bs => Except.ok (b :: bs)

def lookup_transcript (transcripts : List (Nat × String)) (i : Nat) :
    Except String (Nat × String) :=
  match alookup transcripts i with
  | some t => Except.ok (i, t)
  | none => Except.error "KeyError"

def segment_caption_async (indices : List Nat) (transcripts : List (Nat × String))
    (capOut : Nat → CaptionOutcome) : Except String (List (Nat × String)) :=
  match exceptMapM (lookup_transcript transcripts) indices with
  | Except.error e => Except.error e
  | Except.ok _ => Except.ok (indices.map (fun i => (i, process_single_caption (capOut i))))

def segment_caption (indices : List Nat) (transcripts : List (Nat × String))
    (capOut : Nat → CaptionOutcome) : Except String (List (Nat × String)) :=
  match segment_caption_async indices transcripts capOut with
  | Except.ok r => Except.ok r
  | Except.error _ => Except.error "RuntimeError"

structure SegmentInfo where
  content : String
  time : String
  transcript : String
  frame_times : List Nat
deriving DecidableEq

def split_chars (sep : Char) : List Char → List (List Char)
  | [] => [[]]
  | c :: rest =>
      match split_chars sep rest with
      | [] => [[c]]
      | g :: gs => if c = sep then [] :: g :: gs else (c :: g) :: gs

def py_split (s : String) (sep : Char) : List String :=
  (split_chars sep s.data).map String.mk

def time_of_name (name : String) : String :=
  let parts := py_split name '-'
  String.intercalate "-" (parts.drop (parts.length - 2))

def merge_one (times : List (Nat × List Nat)) (transcripts captions : List (Nat × String))
    (p : Nat × String) : Except String (Nat × SegmentInfo) :=
  match alookup captions p.1, alookup transcripts p.1, alookup times p.1 with
  | some c, some t, some ft =>
      Except.ok (p.1,
        { content := "Caption:\n" ++ c ++ "\nTranscript:\n" ++ t ++ "\n\n",
          time := time_of_name p.2, transcript := t, frame_times := ft })
  | _, _, _ => Except.error "KeyError"

def merge_segment_information (index2name : List (Nat × String))
    (times : List (Nat × List Nat)) (transcripts captions : List (Nat × String)) :
    Except String (List (Nat × SegmentInfo)) :=
  exceptMapM (merge_one times transcripts captions) index2name

structure VideoJob where
  path : String
  index2name : List (Nat × String)
  times : List (Nat × List Nat)
  asrOut : Nat → ASROutcome
  capOut : Nat → CaptionOutcome

def run_pipeline_one (job : VideoJob) : Except String (List (Nat × SegmentInfo)) :=
  let transcripts := speech_to_text_online (job.index2name.map (fun p => (p.1, job.asrOut p.1)))
  match segment_caption (job.index2name.map Prod.fst) transcripts job.capOut with
  | Except.error e => Except.error e
  | Except.ok captions =>
      merge_segment_information job.index2name job.times transcripts captions

def progress_patch (step msg : String) : Dict :=
  [("status", if step = "Completed" then "completed" else "processing"),
   ("message", msg), ("current_step", step)]

def add_indexed_video (now : Nat) (path : String) (doc : StatusDoc) : StatusDoc :=
  { doc with
    indexed_videos := some (doc.indexed_videos.getD [] ++ [path]),
    last_updated := some now }

def run_jobs (now : Nat) :
    StatusDoc → List VideoJob →
    StatusDoc × List (String × List (Nat × SegmentInfo)) × Option String
  | doc, [] => (doc, [], none)
  | doc, job :: rest =>
      match run_pipeline_one job with
      | Except.error e =>
          (update_session_status now Channel.indexing
            [("status", "error"), ("message", "Video indexing failed: " ++ e),
             ("current_step", "Error")] doc,
           [], some e)
      | Except.ok segs =>
          let doc1 := update_session_status now Channel.indexing
            (progress_patch "One Video Completed" ("Finished " ++ job.path)) doc
          let doc2 := add_indexed_video now job.path doc1
          match run_jobs now doc2 rest with
          | (doc3, results, err) => (doc3, (job.path, segs) :: results, err)

def index_video_worker_process (now : Nat) (doc0 : StatusDoc) (jobs : List VideoJob) :
    StatusDoc × List (String × List (Nat × SegmentInfo)) :=
  let doc1 := update_session_status now Channel.indexing
    [("status", "processing"), ("message", "Initializing AI Assistant..."),
     ("current_step", "Initializing")] doc0
  match run_jobs now doc1 jobs with
  | (doc2, results, some _) => (doc2, results)
  | (doc2, results, none) =>
      let doc3 := update_session_status now Channel.indexing
        (progress_patch "Completed" "Video processing completed for all videos") doc2
      let doc4 := update_session_status now Channel.indexing
        [("status", "completed"), ("message", "All videos processed successfully"),
         ("current_step", "Completed")] doc3
      (doc4, results)

def get_indexed_videos (doc : StatusDoc) : List String :=
  doc.indexed_videos.getD []

structure RAGState where
  video_path_db : List (String × String)
  video_segments : List (String × List (Nat × SegmentInfo))
deriving DecidableEq

def video_name_of (path : String) : String :=
  (py_split ((py_split path '/').getLastD "") '.').headD ""

def insert_one_video (st : RAGState) (path : String)
    (produced : List (Nat × SegmentInfo)) : RAGState :=
  let name := video_name_of path
  if (alookup st.video_segments name).isSome then st
  else
    { video_path_db := aset st.video_path_db name path,
      video_segments := aset st.video_segments name produced }

structure IBState where
  is_initialized : Bool
  is_loaded : Bool
  usage_count : Nat
  has_embedder : Bool
deriving DecidableEq

def encode_video_segments (encF : List String → List Int) (st : IBState)
    (batch : List String) : IBState × Except String (List Int) :=
  if st.is_loaded then
    ({ st with usage_count := st.usage_count + 1 }, Except.ok (encF batch))
  else (st, Except.error "ImageBind not loaded")

def encode_string_query (encQ : String → List Int) (st : IBState)
    (q : String) : IBState × Except String (List Int) :=
  if st.is_loaded then
    ({ st with usage_count := st.usage_count + 1 }, Except.ok (encQ q))
  else (st, Except.error "ImageBind not loaded")

inductive Action
  | acquire
  | release
  | work (tag : String)
deriving DecidableEq

abbrev Event := Bool × Action

structure Sys where
  owner : Option Bool
  remA : List Action
  remB : List Action
deriving DecidableEq

def rem (s : Sys) (t : Bool) : List Action :=
  if t then s.remB else s.remA

def setRem (s : Sys) (t : Bool) (l : List Action) : Sys :=
  if t then { s with remB := l } else { s with remA := l }

def stepThread (s : Sys) (t : Bool) : Option (Sys × Event) :=
  match rem s t with
  | [] => none
  | Action.acquire :: rest =>
      match s.owner with
      | none => some ({ setRem s t rest with owner := some t }, (t, Action.acquire))
      | some _ => none
  | Action.release :: rest =>
      if s.owner = some t then
        some ({ setRem s t rest with owner := none }, (t, Action.release))
      else none
  | Action.work tg :: rest => some (setRem s t rest, (t, Action.work tg))

def exec (s : Sys) : List Bool → Option (Sys × List Event)
  | [] => some (s, [])
  | t :: sched =>
      match stepThread s t with
      | none => none
      | some (s1, e) =>
          match exec s1 sched with
          | none => none
          | some (s2, tr) => some (s2, e :: tr)

def with_lock (body : List String) : List Action :=
  Action.acquire :: body.map Action.work ++ [Action.release]

def initialize_actions : List Action :=
  with_lock ["record model_path and model_config, set is_initialized"]

def ensure_imagebind_loaded_actions : List Action :=
  with_lock ["check is_loaded", "load model weights, set is_loaded"]

def release_imagebind_actions : List Action :=
  with_lock ["check is_loaded", "free embedder memory, clear is_loaded"]

def encode_video_segments_actions : List Action :=
  with_lock ["check is_loaded", "usage_count increment",
             "embedder forward pass on video batch"]

def encode_string_query_actions : List Action :=
  with_lock ["check is_loaded", "usage_count increment",
             "embedder forward pass on query"]

def mutating_ops : List (List Action) :=
  [initialize_actions, ensure_imagebind_loaded_actions, release_imagebind_actions,
   encode_video_segments_actions, encode_string_query_actions]

def Locked (p : List Action) : Prop :=
  ∃ body : List String, p = Action.acquire :: body.map Action.work ++ [Action.release]

def consumed (t : Bool) (tr : List Event) : List Action :=
  (tr.filter (fun e => e.1 = t)).map Prod.snd

def prog (pA pB : List Action) (t : Bool) : List Action :=
  if t then pB else pA

def Inv (pA pB : List Action) (tr : List Event) (s : Sys) : Prop :=
  (∀ t : Bool, consumed t tr ++ rem s t = prog pA pB t) ∧
  (∀ t : Bool, s.owner = some t ↔ (consumed t tr ≠ [] ∧ rem s t ≠ []))

def c9_sched : List Bool :=
  [false, false, false, false, false, true, true, true, true, true]

def c9_trace : List Event :=
  [(false, Action.acquire),
   (false, Action.work "check is_loaded"),
   (false, Action.work "usage_count increment"),
   (false, Action.work "embedder forward pass on video batch"),
   (false, Action.release),
   (true, Action.acquire),
   (true, Action.work "check is_loaded"),
   (true, Action.work "usage_count increment"),
   (true, Action.work "embedder forward pass on query"),
   (true, Action.release)]

def c2_prior_doc : StatusDoc :=
  { indexing_status := some [("status", "completed")],
    query_status := some [("status", "completed"), ("answer", "42")],
    indexed_videos := some ["old.mp4"],
    created_at := some 5,
    last_updated := some 6 }

def c6_pm : PMState :=
  { config_set := true,
    running_processes := [("abc", { pid := 7, ptype := "video_indexing", started_at := 0 })] }

def c6_os : OSState := { alive := [7], docs := [] }

def c10_os : OSState :=
  { alive := [],
    docs := [("abc",
      { indexing_status := some [("status", "completed"), ("message", "done"),
          ("current_step", "Completed")],
        query_status := none, indexed_videos := some ["v.mp4"],
        created_at := some 1, last_updated := some 2 })] }

def c7_segment : SegmentInfo :=
  { content := "Caption:\nc\nTranscript:\nt\n\n", time := "0-30",
    transcript := "t", frame_times := [0, 10, 20] }

def c8_unloaded : IBState :=
  { is_initialized := true, is_loaded := false, usage_count := 3, has_embedder := false }

def c8_loaded : IBState :=
  { is_initialized := true, is_loaded := true, usage_count := 3, has_embedder := true }

def c1_job : VideoJob :=
  { path := "/videos/abc.mp4",
    index2name := [(0, "abc-0-30"), (1, "abc-30-60"), (2, "abc-60-90")],
    times := [(0, [0, 10, 20]), (1, [30, 40, 50]), (2, [60, 70, 80])],
    asrOut := fun i => if i = 1 then ASROutcome.raises else ASROutcome.sentences ["speech"],
    capOut := fun _ => CaptionOutcome.returns "a scene" }

def c3_job (c0 c2 : String) : VideoJob :=
  { path := "/videos/abc.mp4",
    index2name := [(0, "abc-0-30"), (1, "abc-30-60"), (2, "abc-60-90")],
    times := [(0, [0, 10, 20]), (1, [30, 40, 50]), (2, [60, 70, 80])],
    asrOut := fun i => ASROutcome.sentences ["speech " ++ toString i],
    capOut := fun i =>
      if i = 0 then CaptionOutcome.returns c0
      else if i = 1 then CaptionOutcome.raises
      else CaptionOutcome.returns c2 }

/-! ## Theorems -/

theorem alookup_aset_self {κ α : Type} [DecidableEq κ] (l : List (κ × α)) (k : κ) (v : α) :
    alookup (aset l k v) k = some v := by
  induction l with
  | nil => simp [aset, alookup]
  | cons p rest ih =>
      by_cases h : p.1 = k
      · simp [aset, h, alookup]
      · simpa [aset, h, alookup] using ih

theorem alookup_aset_ne {κ α : Type} [DecidableEq κ] (l : List (κ × α)) (k k' : κ) (v : α)
    (h : k' ≠ k) : alookup (aset l k' v) k = alookup l k := by
  induction l with
  | nil => simp [aset, alookup, h]
  | cons p rest ih =>
      by_cases hp : p.1 = k'
      · simp [aset, hp, alookup, h, Ne.symm h]
      · by_cases hk : p.1 = k
        · simp [aset, hp, alookup, hk, Ne.symm h]
        · simp [aset, hp, alookup, hk, ih]

theorem alookup_aerase_self {κ α : Type} [DecidableEq κ] (l : List (κ × α)) (k : κ) :
    alookup (aerase l k) k = none := by
  induction l with
  | nil => simp [aerase, alookup]
  | cons p rest ih =>
      by_cases h : p.1 = k
      · simpa [aerase, h] using ih
      · simpa [aerase, h, alookup] using ih

theorem alookup_none_of_not_mem {κ α : Type} [DecidableEq κ] (l : List (κ × α)) (k : κ)
    (h : k ∉ l.map Prod.fst) : alookup l k = none := by
  induction l with
  | nil => rfl
  | cons p rest ih =>
      simp only [List.map_cons, List.mem_cons] at h
      push_neg at h
      simp [alookup, Ne.symm h.1, ih h.2]

theorem dget_dupdate3_fst (ch : Dict) (k1 k2 k3 a b c : String)
    (h2 : k2 ≠ k1) (h3 : k3 ≠ k1) :
    dget (dupdate ch [(k1, a), (k2, b), (k3, c)]) k1 = some a := by
  simp only [dupdate, List.foldl, dget]
  rw [alookup_aset_ne _ _ _ _ h3, alookup_aset_ne _ _ _ _ h2, alookup_aset_self]

theorem dget_dupdate3_snd (ch : Dict) (k1 k2 k3 a b c : String)
    (h3 : k3 ≠ k2) :
    dget (dupdate ch [(k1, a), (k2, b), (k3, c)]) k2 = some b := by
  simp only [dupdate, List.foldl, dget]
  rw [alookup_aset_ne _ _ _ _ h3, alookup_aset_self]

theorem mutating_ops_locked : ∀ p ∈ mutating_ops, Locked p := by
  intro p hp
  simp only [mutating_ops, List.mem_cons, List.mem_singleton, List.not_mem_nil, or_false] at hp
  rcases hp with h | h | h | h | h <;> subst h <;> exact ⟨_, rfl⟩

theorem append_cons_singleton {α : Type} :
    ∀ {l₁ : List α} {m : List α} {l₂ : List α} {x y : α},
      x ∉ m → l₁ ++ x :: l₂ = m ++ [y] → l₂ = [] := by
  intro l₁
  induction l₁ with
  | nil =>
      intro m l₂ x y hx h
      cases m with
      | nil =>
          simp only [List.nil_append, List.cons.injEq] at h
          exact h.2
      | cons z m' =>
          simp only [List.nil_append, List.cons_append, List.cons.injEq] at h
          exact absurd (h.1 ▸ List.mem_cons_self z m') hx
  | cons a l₁' ih =>
      intro m l₂ x y hx h
      cases m with
      | nil =>
          simp only [List.cons_append, List.nil_append, List.cons.injEq] at h
          exact absurd h.2 (by simp)
      | cons z m' =>
          simp only [List.cons_append, List.cons.injEq] at h
          exact ih (fun hm => hx (List.mem_cons_of_mem z hm)) h.2

theorem locked_head_acquire {p c r : List Action} (hp : Locked p)
    (hc : c ++ Action.acquire :: r = p) : c = [] := by
  obtain ⟨body, rfl⟩ := hp
  cases c with
  | nil => rfl
  | cons x c' =>
      rw [List.cons_append] at hc
      injection hc with h0 h1
      have hmem : Action.acquire ∈ c' ++ Action.acquire :: r :=
        List.mem_append_right _ (List.mem_cons_self _ _)
      rw [h1] at hmem
      rcases List.mem_append.mp hmem with h | h
      · obtain ⟨tg, _, habs⟩ := List.mem_map.mp h
        exact absurd habs (by simp)
      · simp at h

theorem locked_head_work {p c r : List Action} {tg : String} (hp : Locked p)
    (hc : c ++ Action.work tg :: r = p) : c ≠ [] ∧ r ≠ [] := by
  obtain ⟨body, rfl⟩ := hp
  constructor
  · intro h
    subst h
    rw [List.nil_append] at hc
    injection hc with h0 h1
    exact absurd h0 (by simp)
  · intro h
    subst h
    have h2 : c ++ [Action.work tg] =
        (Action.acquire :: body.map Action.work) ++ [Action.release] := by
      simpa using hc
    have h3 := List.append_inj' h2 rfl
    have h4 := h3.2
    simp at h4

theorem locked_head_release {p c r : List Action} (hp : Locked p)
    (hc : c ++ Action.release :: r = p) : c ≠ [] ∧ r = [] := by
  obtain ⟨body, rfl⟩ := hp
  have hcne : c ≠ [] := by
    intro h
    subst h
    rw [List.nil_append] at hc
    injection hc with h0 h1
    exact absurd h0 (by simp)
  refine ⟨hcne, ?_⟩
  obtain ⟨x, c', rfl⟩ := List.exists_cons_of_ne_nil hcne
  rw [List.cons_append] at hc
  injection hc with h0 h1
  exact append_cons_singleton (by simp) h1

theorem locked_tail_ne_nil {p r : List Action} (hp : Locked p)
    (hc : p = Action.acquire :: r) : r ≠ [] := by
  obtain ⟨body, hb⟩ := hp
  rw [hb] at hc
  injection hc with h0 h1
  simp [← h1]

theorem consumed_snoc_same (t : Bool) (a : Action) (tr : List Event) :
    consumed t (tr ++ [(t, a)]) = consumed t tr ++ [a] := by
  simp [consumed, List.filter_append]

theorem consumed_snoc_other {t u : Bool} (h : u ≠ t) (a : Action) (tr : List Event) :
    consumed t (tr ++ [(u, a)]) = consumed t tr := by
  simp [consumed, List.filter_append, h]

theorem rem_setRem_other {t u : Bool} (s : Sys) (l : List Action) (h : t ≠ u) :
    rem (setRem s u l) t = rem s t := by
  cases t <;> cases u
  · exact absurd rfl h
  · simp [rem, setRem]
  · simp [rem, setRem]
  · exact absurd rfl h

theorem rem_setRem_same (s : Sys) (t : Bool) (l : List Action) :
    rem (setRem s t l) t = l := by
  cases t <;> simp [rem, setRem]

theorem rem_update_owner (x : Sys) (o : Option Bool) (t : Bool) :
    rem { x with owner := o } t = rem x t := by
  cases t <;> rfl

theorem stepThread_cases {s : Sys} {t : Bool} {s' : Sys} {e : Event}
    (h : stepThread s t = some (s', e)) :
    (∃ rest, rem s t = Action.acquire :: rest ∧ s.owner = none ∧
       s' = { setRem s t rest with owner := some t } ∧ e = (t, Action.acquire)) ∨
    (∃ rest, rem s t = Action.release :: rest ∧ s.owner = some t ∧
       s' = { setRem s t rest with owner := none } ∧ e = (t, Action.release)) ∨
    (∃ rest tg, rem s t = Action.work tg :: rest ∧
       s' = setRem s t rest ∧ e = (t, Action.work tg)) := by
  cases hrem : rem s t with
  | nil => simp [stepThread, hrem] at h
  | cons a rest =>
      cases a with
      | acquire =>
          cases how : s.owner with
          | none =>
              simp only [stepThread, hrem, how, Option.some.injEq, Prod.mk.injEq] at h
              exact Or.inl ⟨rest, rfl, rfl, h.1.symm, h.2.symm⟩
          | some w => simp [stepThread, hrem, how] at h
      | release =>
          by_cases how : s.owner = some t
          · simp only [stepThread, hrem, how, if_pos, Option.some.injEq, Prod.mk.injEq] at h
            exact Or.inr (Or.inl ⟨rest, rfl, how, h.1.symm, h.2.symm⟩)
          · simp [stepThread, hrem, how] at h
      | work tg =>
          simp only [stepThread, hrem, Option.some.injEq, Prod.mk.injEq] at h
          exact Or.inr (Or.inr ⟨rest, tg, rfl, h.1.symm, h.2.symm⟩)

theorem stepThread_fst {s : Sys} {t : Bool} {s' : Sys} {e : Event}
    (h : stepThread s t = some (s', e)) : e.1 = t := by
  rcases stepThread_cases h with ⟨_, _, _, _, he⟩ | ⟨_, _, _, _, he⟩ | ⟨_, _, _, _, he⟩ <;>
    simp [he]

theorem stepThread_ne_nil {s : Sys} {t : Bool} {s' : Sys} {e : Event}
    (h : stepThread s t = some (s', e)) : rem s t ≠ [] := by
  rcases stepThread_cases h with ⟨r, hr, _⟩ | ⟨r, hr, _⟩ | ⟨r, tg, hr, _, _⟩ <;> simp [hr]

theorem stepThread_rem_other {s : Sys} {t u : Bool} {s' : Sys} {e : Event}
    (hut : t ≠ u) (h : stepThread s u = some (s', e)) : rem s' t = rem s t := by
  rcases stepThread_cases h with ⟨r, hr, _, hs, _⟩ | ⟨r, hr, _, hs, _⟩ | ⟨r, tg, hr, hs, _⟩ <;>
    rw [hs] <;>
    simp [rem_update_owner, rem_setRem_other _ _ hut]

theorem owner_setRem (s : Sys) (t : Bool) (l : List Action) :
    (setRem s t l).owner = s.owner := by
  cases t <;> rfl

theorem prog_locked {pA pB : List Action} (hA : Locked pA) (hB : Locked pB) (t : Bool) :
    Locked (prog pA pB t) := by
  cases t
  · simpa [prog] using hA
  · simpa [prog] using hB

theorem step_inv {pA pB : List Action} (hA : Locked pA) (hB : Locked pB)
    {tr0 : List Event} {s : Sys} {t : Bool} {s' : Sys} {e : Event}
    (hinv : Inv pA pB tr0 s) (hstep : stepThread s t = some (s', e)) :
    Inv pA pB (tr0 ++ [e]) s' := by
  obtain ⟨hc, ho⟩ := hinv
  rcases stepThread_cases hstep with
    ⟨rest, hrem, how, hs, he⟩ | ⟨rest, hrem, how, hs, he⟩ | ⟨rest, tg, hrem, hs, he⟩
  · -- acquire
    subst hs; subst he
    have hcons := hc t
    rw [hrem] at hcons
    have hc0 : consumed t tr0 = [] := locked_head_acquire (prog_locked hA hB t) hcons
    have hprog : prog pA pB t = Action.acquire :: rest := by
      rw [← hcons, hc0, List.nil_append]
    have hrne : rest ≠ [] := locked_tail_ne_nil (prog_locked hA hB t) hprog
    constructor
    · intro u
      by_cases hu : u = t
      · subst hu
        rw [consumed_snoc_same, rem_update_owner, rem_setRem_same, hc0, hprog]
        rfl
      · rw [consumed_snoc_other (fun hh => hu hh.symm), rem_update_owner,
          rem_setRem_other _ _ hu]
        exact hc u
    · intro u
      by_cases hu : u = t
      · subst hu
        refine iff_of_true rfl ⟨?_, ?_⟩
        · rw [consumed_snoc_same]; simp
        · rw [rem_update_owner, rem_setRem_same]; exact hrne
      · refine iff_of_false (by simp [Ne.symm hu]) ?_
        rw [consumed_snoc_other (fun hh => hu hh.symm), rem_update_owner,
          rem_setRem_other _ _ hu]
        intro hcontra
        have := (ho u).mpr hcontra
        rw [how] at this
        exact Option.noConfusion this
  · -- release
    subst hs; subst he
    have hcons := hc t
    rw [hrem] at hcons
    obtain ⟨hcne, hrnil⟩ := locked_head_release (prog_locked hA hB t) hcons
    subst hrnil
    constructor
    · intro u
      by_cases hu : u = t
      · subst hu
        rw [consumed_snoc_same, rem_update_owner, rem_setRem_same, List.append_nil]
        simpa using hcons
      · rw [consumed_snoc_other (fun hh => hu hh.symm), rem_update_owner,
          rem_setRem_other _ _ hu]
        exact hc u
    · intro u
      refine iff_of_false (by simp) ?_
      by_cases hu : u = t
      · subst hu
        rw [rem_update_owner, rem_setRem_same]
        intro hcontra
        exact hcontra.2 rfl
      · rw [consumed_snoc_other (fun hh => hu hh.symm), rem_update_owner,
          rem_setRem_other _ _ hu]
        intro hcontra
        have := (ho u).mpr hcontra
        rw [how] at this
        have hne := Option.some.inj this
        exact hu hne.symm
  · -- work
    subst hs; subst he
    have hcons := hc t
    rw [hrem] at hcons
    obtain ⟨hcne, hrne⟩ := locked_head_work (prog_locked hA hB t) hcons
    have howner : s.owner = some t := (ho t).mpr ⟨hcne, by rw [hrem]; simp⟩
    constructor
    · intro u
      by_cases hu : u = t
      · subst hu
        rw [consumed_snoc_same, rem_setRem_same, List.append_assoc]
        simpa using hcons
      · rw [consumed_snoc_other (fun hh => hu hh.symm), rem_setRem_other _ _ hu]
        exact hc u
    · intro u
      rw [owner_setRem, howner]
      by_cases hu : u = t
      · subst hu
        refine iff_of_true rfl ⟨?_, ?_⟩
        · rw [consumed_snoc_same]; simp
        · rw [rem_setRem_same]; exact hrne
      · refine iff_of_false (fun habs => hu (Option.some.inj habs).symm) ?_
        rw [consumed_snoc_other (fun hh => hu hh.symm), rem_setRem_other _ _ hu]
        intro hcontra
        have := (ho u).mpr hcontra
        rw [howner] at this
        have hne := Option.some.inj this
        exact hu hne.symm

theorem inv_init (pA pB : List Action) :
    Inv pA pB [] { owner := none, remA := pA, remB := pB } := by
  constructor
  · intro t; cases t <;> simp [consumed, rem, prog]
  · intro t; cases t <;> simp [consumed]

theorem exec_inv {pA pB : List Action} (hA : Locked pA) (hB : Locked pB) :
    ∀ (sched : List Bool) (s : Sys) (tr0 : List Event), Inv pA pB tr0 s →
      ∀ (s' : Sys) (tr : List Event), exec s sched = some (s', tr) →
        Inv pA pB (tr0 ++ tr) s' := by
  intro sched
  induction sched with
  | nil =>
      intro s tr0 hinv s' tr hx
      simp only [exec, Option.some.injEq, Prod.mk.injEq] at hx
      rw [← hx.1, ← hx.2, List.append_nil]
      exact hinv
  | cons t sch ih =>
      intro s tr0 hinv s' tr hx
      simp only [exec] at hx
      cases hst : stepThread s t with
      | none => rw [hst] at hx; exact absurd hx (by simp)
      | some pe =>
          obtain ⟨s1, e⟩ := pe
          simp only [hst] at hx
          cases hx2 : exec s1 sch with
          | none => simp only [hx2] at hx; exact absurd hx (by simp)
          | some pr =>
              obtain ⟨s2, tr2⟩ := pr
              simp only [hx2] at hx
              simp only [Option.some.injEq, Prod.mk.injEq] at hx
              have hinv1 := step_inv hA hB hinv hst
              have hres := ih s1 (tr0 ++ [e]) hinv1 s2 tr2 hx2
              rw [← hx.1, ← hx.2]
              simpa [List.append_assoc] using hres

theorem exec_append_some :
    ∀ (l₁ l₂ : List Bool) (s s' : Sys) (tr : List Event),
      exec s (l₁ ++ l₂) = some (s', tr) →
      ∃ s1 tr1 tr2, exec s l₁ = some (s1, tr1) ∧ exec s1 l₂ = some (s', tr2) ∧
        tr = tr1 ++ tr2 := by
  intro l₁
  induction l₁ with
  | nil =>
      intro l₂ s s' tr h
      exact ⟨s, [], tr, rfl, by simpa using h, rfl⟩
  | cons t l₁' ih =>
      intro l₂ s s' tr h
      simp only [List.cons_append, exec, List.append_eq] at h
      cases hst : stepThread s t with
      | none => rw [hst] at h; exact absurd h (by simp)
      | some pe =>
          obtain ⟨s1, e⟩ := pe
          simp only [hst] at h
          cases hx2 : exec s1 (l₁' ++ l₂) with
          | none => simp only [hx2] at h; exact absurd h (by simp)
          | some pr =>
              obtain ⟨s2, tr2⟩ := pr
              simp only [hx2] at h
              simp only [Option.some.injEq, Prod.mk.injEq] at h
              obtain ⟨sm, trm1, trm2, hm1, hm2, hmeq⟩ := ih l₂ s1 s2 tr2 hx2
              refine ⟨sm, e :: trm1, trm2, ?_, ?_, ?_⟩
              · simp only [exec, hst, hm1]
              · rw [← h.1]; exact hm2
              · rw [← h.2, hmeq]; rfl

theorem exec_length :
    ∀ (sched : List Bool) (s s' : Sys) (tr : List Event),
      exec s sched = some (s', tr) → tr.length = sched.length := by
  intro sched
  induction sched with
  | nil =>
      intro s s' tr h
      simp only [exec, Option.some.injEq, Prod.mk.injEq] at h
      rw [← h.2]; rfl
  | cons t sch ih =>
      intro s s' tr h
      simp only [exec] at h
      cases hst : stepThread s t with
      | none => rw [hst] at h; exact absurd h (by simp)
      | some pe =>
          obtain ⟨s1, e⟩ := pe
          simp only [hst] at h
          cases hx2 : exec s1 sch with
          | none => simp only [hx2] at h; exact absurd h (by simp)
          | some pr =>
              obtain ⟨s2, tr2⟩ := pr
              simp only [hx2] at h
              simp only [Option.some.injEq, Prod.mk.injEq] at h
              rw [← h.2]
              simpa using ih s1 s2 tr2 hx2

theorem exec_future_rem {t : Bool} :
    ∀ (sched : List Bool) (s s' : Sys) (tr : List Event),
      exec s sched = some (s', tr) → (∃ e ∈ tr, e.1 = t) → rem s t ≠ [] := by
  intro sched
  induction sched with
  | nil =>
      intro s s' tr h he
      simp only [exec, Option.some.injEq, Prod.mk.injEq] at h
      rw [← h.2] at he
      simp at he
  | cons u sch ih =>
      intro s s' tr h he
      simp only [exec] at h
      cases hst : stepThread s u with
      | none => rw [hst] at h; exact absurd h (by simp)
      | some pe =>
          obtain ⟨s1, e1⟩ := pe
          simp only [hst] at h
          cases hx2 : exec s1 sch with
          | none => simp only [hx2] at h; exact absurd h (by simp)
          | some pr =>
              obtain ⟨s2, tr2⟩ := pr
              simp only [hx2] at h
              simp only [Option.some.injEq, Prod.mk.injEq] at h
              obtain ⟨e, hemem, het⟩ := he
              rw [← h.2] at hemem
              rcases List.mem_cons.mp hemem with rfl | hmem
              · have hut : u = t := by rw [← stepThread_fst hst, het]
                subst hut
                exact stepThread_ne_nil hst
              · by_cases hut : u = t
                · subst hut
                  exact stepThread_ne_nil hst
                · have hr1 : rem s1 t ≠ [] := ih s1 s2 tr2 hx2 ⟨e, hmem, het⟩
                  rw [← stepThread_rem_other (fun hh => hut hh.symm) hst]
                  exact hr1

theorem consumed_ne_nil_of_mem {t : Bool} {tr : List Event} {e : Event}
    (he : e ∈ tr) (ht : e.1 = t) : consumed t tr ≠ [] := by
  have hf : e ∈ tr.filter (fun e' => e'.1 = t) :=
    List.mem_filter.mpr ⟨he, by simp [ht]⟩
  exact List.ne_nil_of_mem (List.mem_map_of_mem Prod.snd hf)

theorem locked_not_end_work {p c : List Action} {tg : String} (hp : Locked p)
    (hc : c ++ [Action.work tg] = p) : False := by
  obtain ⟨body, rfl⟩ := hp
  have h2 : c ++ [Action.work tg] =
      (Action.acquire :: body.map Action.work) ++ [Action.release] := by
    simpa using hc
  have h3 := List.append_inj' h2 rfl
  simpa using h3.2

theorem c9_lock_serialization (pA pB : List Action)
    (hA : pA ∈ mutating_ops) (hB : pB ∈ mutating_ops)
    (sched : List Bool) (s' : Sys) (tr : List Event)
    (hexec : exec { owner := none, remA := pA, remB := pB } sched = some (s', tr))
    (i j k : Nat) (hi : i < tr.length) (hj : j < tr.length) (hk : k < tr.length)
    (hij : i < j) (hjk : j < k)
    (wi : ∃ tg, (tr[i]).2 = Action.work tg)
    (wj : ∃ tg, (tr[j]).2 = Action.work tg)
    (wk : ∃ tg, (tr[k]).2 = Action.work tg)
    (hik : (tr[i]).1 = (tr[k]).1) :
    (tr[j]).1 = (tr[i]).1 := by
  have hLA : Locked pA := mutating_ops_locked pA hA
  have hLB : Locked pB := mutating_ops_locked pB hB
  have hlen : tr.length = sched.length := exec_length sched _ s' tr hexec
  obtain ⟨sMid, tr1, tr2, hx1, hx2, htr⟩ :=
    exec_append_some (sched.take (j + 1)) (sched.drop (j + 1)) _ s' tr
      (by rw [List.take_append_drop]; exact hexec)
  have hlen1 : tr1.length = j + 1 := by
    have h := exec_length _ _ _ _ hx1
    rw [List.length_take] at h
    omega
  have htr1 : tr1 = tr.take (j + 1) := by
    rw [htr, ← hlen1, List.take_left]
  have htr2 : tr2 = tr.drop (j + 1) := by
    rw [htr, ← hlen1, List.drop_left]
  have hinv : Inv pA pB tr1 sMid := by
    have h := exec_inv hLA hLB (sched.take (j + 1)) _ [] (inv_init pA pB) sMid tr1 hx1
    simpa using h
  -- the work events at positions i (before j) and k (after j) show thread
  -- `t` is inside its locked body at state `sMid`
  have hgeti : tr[i] ∈ tr1 := by
    rw [htr1]
    have hlt : i < (tr.take (j + 1)).length := by
      rw [List.length_take]; omega
    have hg : (tr.take (j + 1))[i] = tr[i] := List.getElem_take tr
    exact hg ▸ List.getElem_mem hlt
  have hconsT : consumed (tr[i]).1 tr1 ≠ [] := consumed_ne_nil_of_mem hgeti rfl
  have hgetk : tr[k] ∈ tr2 := by
    rw [htr2]
    have hlt : k - (j + 1) < (tr.drop (j + 1)).length := by
      rw [List.length_drop]; omega
    have hg : (tr.drop (j + 1))[k - (j + 1)] = tr[k] := by
      have hidx : (j + 1) + (k - (j + 1)) = k := by omega
      rw [List.getElem_drop tr]
      simp only [hidx]
    exact hg ▸ List.getElem_mem hlt
  have hremT : rem sMid (tr[i]).1 ≠ [] := by
    refine exec_future_rem (sched.drop (j + 1)) sMid s' tr2 hx2 ⟨tr[k], hgetk, ?_⟩
    exact hik.symm
  have howT : sMid.owner = some (tr[i]).1 := (hinv.2 _).mpr ⟨hconsT, hremT⟩
  -- the work event at position j shows thread `u` is also inside its locked
  -- body at state `sMid`
  have hgetj : tr[j] ∈ tr1 := by
    rw [htr1]
    have hlt : j < (tr.take (j + 1)).length := by
      rw [List.length_take]; omega
    have hg : (tr.take (j + 1))[j] = tr[j] := List.getElem_take tr
    exact hg ▸ List.getElem_mem hlt
  have hconsU : consumed (tr[j]).1 tr1 ≠ [] := consumed_ne_nil_of_mem hgetj rfl
  have htake : tr1 = tr.take j ++ [tr[j]] := by
    rw [htr1, ← List.take_concat_get' tr j hj]
  have hconsUeq : consumed (tr[j]).1 tr1 =
      consumed (tr[j]).1 (tr.take j) ++ [(tr[j]).2] := by
    rw [htake]
    have hpair : tr[j] = ((tr[j]).1, (tr[j]).2) := rfl
    rw [hpair, consumed_snoc_same]
  have hremU : rem sMid (tr[j]).1 ≠ [] := by
    intro hnil
    have hcu := hinv.1 (tr[j]).1
    rw [hnil, List.append_nil, hconsUeq] at hcu
    obtain ⟨tg, htg⟩ := wj
    rw [htg] at hcu
    exact locked_not_end_work (prog_locked hLA hLB _) hcu
  have howU : sMid.owner = some (tr[j]).1 := (hinv.2 _).mpr ⟨hconsU, hremU⟩
  have hsome : some (tr[i]).1 = some (tr[j]).1 := howT.symm.trans howU
  exact (Option.some.inj hsome).symm

theorem c9_lock_serialization_witness :
    exec { owner := none, remA := encode_video_segments_actions,
           remB := encode_string_query_actions } c9_sched =
      some ({ owner := none, remA := [], remB := [] }, c9_trace) ∧
    (c9_trace[2]).1 = (c9_trace[1]).1 := by
  refine ⟨by decide, ?_⟩
  exact c9_lock_serialization encode_video_segments_actions encode_string_query_actions
    (by decide) (by decide) c9_sched { owner := none, remA := [], remB := [] } c9_trace
    (by decide) 1 2 3 (by decide) (by decide) (by decide) (by decide) (by decide)
    ⟨"check is_loaded", by decide⟩
    ⟨"usage_count increment", by decide⟩
    ⟨"embedder forward pass on video batch", by decide⟩
    (by decide)

theorem c5_write_failure_preserves_target (fs : FileState) (d : StatusDoc)
    (o : WriteOutcome) (h : o ≠ WriteOutcome.success) :
    (write_status_json fs d o).1.target = fs.target ∧
    (write_status_json fs d o).1.temp = none ∧
    ∃ e, (write_status_json fs d o).2 = Except.error e := by
  cases o with
  | success => exact absurd rfl h
  | dumpFailNothing => exact ⟨rfl, rfl, "open failed", rfl⟩
  | dumpFailMid => exact ⟨rfl, rfl, "dump failed", rfl⟩
  | renameFail => exact ⟨rfl, rfl, "rename failed", rfl⟩

theorem c5_write_failure_witness :
    WriteOutcome.renameFail ≠ WriteOutcome.success ∧
    ((write_status_json { target := some emptyDoc, temp := none } emptyDoc
        WriteOutcome.renameFail).1.target =
      ({ target := some emptyDoc, temp := none } : FileState).target ∧
     (write_status_json { target := some emptyDoc, temp := none } emptyDoc
        WriteOutcome.renameFail).1.temp = none ∧
     ∃ e, (write_status_json { target := some emptyDoc, temp := none } emptyDoc
        WriteOutcome.renameFail).2 = Except.error e) :=
  ⟨by decide, c5_write_failure_preserves_target _ _ _ (by decide)⟩

theorem c2_counterexample :
    alookup (start_video_indexing 100 9 "abc" ["new.mp4"]
        { config_set := true, running_processes := [] }
        { alive := [], docs := [("abc", c2_prior_doc)] }).2.1.docs "abc" =
      some (initial_status_doc 1 100) ∧
    (initial_status_doc 1 100).query_status = none ∧
    c2_prior_doc.query_status = some [("status", "completed"), ("answer", "42")] ∧
    (initial_status_doc 1 100).indexed_videos = some [] ∧
    c2_prior_doc.indexed_videos = some ["old.mp4"] := by
  decide

theorem c2_channel_merge_amended (now : Nat) (patch : Dict) (doc : StatusDoc) :
    ((update_session_status now Channel.indexing patch doc).query_status = doc.query_status ∧
     (update_session_status now Channel.indexing patch doc).indexed_videos = doc.indexed_videos ∧
     (update_session_status now Channel.indexing patch doc).created_at = doc.created_at ∧
     (update_session_status now Channel.indexing patch doc).indexing_status =
       some (dupdate (doc.indexing_status.getD []) patch)) ∧
    ((update_session_status now Channel.query patch doc).indexing_status = doc.indexing_status ∧
     (update_session_status now Channel.query patch doc).indexed_videos = doc.indexed_videos ∧
     (update_session_status now Channel.query patch doc).created_at = doc.created_at ∧
     (update_session_status now Channel.query patch doc).query_status =
       some (dupdate (doc.query_status.getD []) patch)) ∧
    (∀ (newPid : Nat) (chat : String) (videos : List String) (pm : PMState) (os : OSState),
      pm.config_set = true →
      alookup (start_video_indexing now newPid chat videos pm os).2.1.docs chat =
        some (initial_status_doc videos.length now)) := by
  refine ⟨⟨rfl, rfl, rfl, rfl⟩, ⟨rfl, rfl, rfl, rfl⟩, ?_⟩
  intro newPid chat videos pm os hconf
  simp [start_video_indexing, hconf, alookup_aset_self]

theorem c2_channel_merge_witness :
    alookup (start_video_indexing 100 9 "abc" ["v.mp4"]
        { config_set := true, running_processes := [] }
        { alive := [], docs := [] }).2.1.docs "abc" =
      some (initial_status_doc 1 100) :=
  (c2_channel_merge_amended 100 [] emptyDoc).2.2 9 "abc" ["v.mp4"]
    { config_set := true, running_processes := [] }
    { alive := [], docs := [] } rfl

theorem c4_second_start_orphans_worker :
    (start_video_indexing 100 9 "abc" ["/videos/v.mp4"]
        { config_set := true,
          running_processes :=
            [("abc", { pid := 7, ptype := "video_indexing", started_at := 0 })] }
        { alive := [7], docs := [] }).1.running_processes =
      [("abc", { pid := 9, ptype := "video_indexing", started_at := 100 })] ∧
    7 ∈ (start_video_indexing 100 9 "abc" ["/videos/v.mp4"]
        { config_set := true,
          running_processes :=
            [("abc", { pid := 7, ptype := "video_indexing", started_at := 0 })] }
        { alive := [7], docs := [] }).2.1.alive ∧
    (start_video_indexing 100 9 "abc" ["/videos/v.mp4"]
        { config_set := true,
          running_processes :=
            [("abc", { pid := 7, ptype := "video_indexing", started_at := 0 })] }
        { alive := [7], docs := [] }).2.2 = true := by
  decide

theorem c6_terminate_escalation (now : Nat) (resp : Nat → Bool) (chat : String)
    (pm : PMState) (os : OSState) (h : ProcHandle)
    (htrack : alookup pm.running_processes chat = some h)
    (halive : h.pid ∈ os.alive)
    (hconf : pm.config_set = true) :
    alookup (terminate_process now resp chat pm os).1.running_processes chat = none ∧
    h.pid ∉ (terminate_process now resp chat pm os).2.1.alive ∧
    dget (((alookup (terminate_process now resp chat pm os).2.1.docs chat).getD
        emptyDoc).indexing_status.getD []) "status" = some "terminated" ∧
    TermEvent.sentTerm h.pid ∈ (terminate_process now resp chat pm os).2.2.2 ∧
    (TermEvent.sentKill h.pid ∈ (terminate_process now resp chat pm os).2.2.2 ↔
      resp h.pid = false) := by
  have hstatus : ∀ docs : List (String × StatusDoc),
      dget (((alookup (aset docs chat
          (update_session_status now Channel.indexing terminated_patch
            ((alookup docs chat).getD emptyDoc))) chat).getD
        emptyDoc).indexing_status.getD []) "status" = some "terminated" := by
    intro docs
    rw [alookup_aset_self]
    simp only [Option.getD_some, update_session_status]
    exact dget_dupdate3_fst _ _ _ _ _ _ _ (by decide) (by decide)
  cases hr : resp h.pid with
  | true =>
      simp only [terminate_process, htrack, halive, if_true, hr, mark_terminated, hconf]
      refine ⟨alookup_aerase_self _ _, ?_, ?_, ?_, ?_⟩
      · simp
      · exact hstatus os.docs
      · simp
      · simp
  | false =>
      simp only [terminate_process, htrack, halive, if_true, hr, mark_terminated, hconf]
      refine ⟨alookup_aerase_self _ _, ?_, ?_, ?_, ?_⟩
      · simp
      · exact hstatus os.docs
      · simp
      · simp

theorem c6_terminate_witness :
    alookup (terminate_process 50 (fun _ => false) "abc" c6_pm c6_os).1.running_processes
        "abc" = none ∧
    7 ∉ (terminate_process 50 (fun _ => false) "abc" c6_pm c6_os).2.1.alive ∧
    dget (((alookup (terminate_process 50 (fun _ => false) "abc" c6_pm c6_os).2.1.docs
        "abc").getD emptyDoc).indexing_status.getD []) "status" = some "terminated" ∧
    TermEvent.sentTerm 7 ∈ (terminate_process 50 (fun _ => false) "abc" c6_pm c6_os).2.2.2 ∧
    (TermEvent.sentKill 7 ∈ (terminate_process 50 (fun _ => false) "abc" c6_pm c6_os).2.2.2 ↔
      (fun _ => false) 7 = false) :=
  c6_terminate_escalation 50 (fun _ => false) "abc" c6_pm c6_os
    { pid := 7, ptype := "video_indexing", started_at := 0 } (by decide) (by decide) rfl

theorem c10_terminate_untracked_marks_terminated (now : Nat) (resp : Nat → Bool)
    (chat : String) (pm : PMState) (os : OSState)
    (huntracked : alookup pm.running_processes chat = none)
    (hconf : pm.config_set = true) :
    dget (((alookup (terminate_process now resp chat pm os).2.1.docs chat).getD
        emptyDoc).indexing_status.getD []) "status" = some "terminated" ∧
    dget (((alookup (terminate_process now resp chat pm os).2.1.docs chat).getD
        emptyDoc).indexing_status.getD []) "message" = some "Process terminated by user" ∧
    (terminate_process now resp chat pm os).2.2.1 = [] ∧
    (terminate_process now resp chat pm os).2.1.alive = os.alive ∧
    (terminate_process now resp chat pm os).1 = pm := by
  simp only [terminate_process, huntracked, mark_terminated, hconf, if_true]
  refine ⟨?_, ?_, by trivial, by trivial, by trivial⟩
  · rw [alookup_aset_self]
    simp only [Option.getD_some, update_session_status]
    exact dget_dupdate3_fst _ _ _ _ _ _ _ (by decide) (by decide)
  · rw [alookup_aset_self]
    simp only [Option.getD_some, update_session_status]
    exact dget_dupdate3_snd _ _ _ _ _ _ _ (by decide)

theorem c10_terminate_untracked_witness :
    dget (((alookup (terminate_process 60 (fun _ => true) "abc"
        { config_set := true, running_processes := [] } c10_os).2.1.docs "abc").getD
        emptyDoc).indexing_status.getD []) "status" = some "terminated" ∧
    dget (((alookup (terminate_process 60 (fun _ => true) "abc"
        { config_set := true, running_processes := [] } c10_os).2.1.docs "abc").getD
        emptyDoc).indexing_status.getD []) "message" = some "Process terminated by user" ∧
    (terminate_process 60 (fun _ => true) "abc"
        { config_set := true, running_processes := [] } c10_os).2.2.1 = [] ∧
    (terminate_process 60 (fun _ => true) "abc"
        { config_set := true, running_processes := [] } c10_os).2.1.alive = c10_os.alive ∧
    (terminate_process 60 (fun _ => true) "abc"
        { config_set := true, running_processes := [] } c10_os).1 =
      { config_set := true, running_processes := [] } :=
  c10_terminate_untracked_marks_terminated 60 (fun _ => true) "abc"
    { config_set := true, running_processes := [] } c10_os (by decide) rfl

theorem countP_aset_of_none {κ α : Type} [DecidableEq κ] (l : List (κ × α)) (k : κ) (v : α)
    (h : alookup l k = none) :
    (aset l k v).countP (fun p => p.1 = k) = l.countP (fun p => p.1 = k) + 1 := by
  induction l with
  | nil => simp [aset]
  | cons p rest ih =>
      by_cases hp : p.1 = k
      · rw [alookup, if_pos hp] at h
        exact absurd h (by simp)
      · rw [alookup, if_neg hp] at h
        simp only [aset, if_neg hp]
        rw [List.countP_cons, List.countP_cons, ih h]
        simp [hp]

theorem countP_zero_of_lookup_none {κ α : Type} [DecidableEq κ] (l : List (κ × α)) (k : κ)
    (h : alookup l k = none) : l.countP (fun p => p.1 = k) = 0 := by
  induction l with
  | nil => simp
  | cons p rest ih =>
      by_cases hp : p.1 = k
      · rw [alookup, if_pos hp] at h
        exact absurd h (by simp)
      · rw [alookup, if_neg hp] at h
        rw [List.countP_cons, ih h]
        simp [hp]

theorem countP_pos_of_lookup_some {κ α : Type} [DecidableEq κ] (l : List (κ × α)) (k : κ)
    (h : (alookup l k).isSome = true) : 1 ≤ l.countP (fun p => p.1 = k) := by
  induction l with
  | nil => simp [alookup] at h
  | cons p rest ih =>
      by_cases hp : p.1 = k
      · rw [List.countP_cons]
        simp [hp]
      · rw [alookup, if_neg hp] at h
        rw [List.countP_cons]
        have := ih h
        omega

theorem c7_idempotent_reinsert (st : RAGState) (path : String)
    (pr1 pr2 : List (Nat × SegmentInfo))
    (hcount : st.video_segments.countP (fun p => p.1 = video_name_of path) ≤ 1) :
    insert_one_video (insert_one_video st path pr1) path pr2 =
      insert_one_video st path pr1 ∧
    (alookup (insert_one_video st path pr1).video_segments
      (video_name_of path)).isSome = true ∧
    (insert_one_video st path pr1).video_segments.countP
      (fun p => p.1 = video_name_of path) = 1 := by
  by_cases hlk : (alookup st.video_segments (video_name_of path)).isSome = true
  · have h1 : insert_one_video st path pr1 = st := by
      simp [insert_one_video, hlk]
    refine ⟨?_, ?_, ?_⟩
    · rw [h1]
      simp [insert_one_video, hlk]
    · rw [h1]
      exact hlk
    · rw [h1]
      have := countP_pos_of_lookup_some st.video_segments (video_name_of path) hlk
      omega
  · have hnone : alookup st.video_segments (video_name_of path) = none := by
      cases hx : alookup st.video_segments (video_name_of path) with
      | none => rfl
      | some v => rw [hx] at hlk; simp at hlk
    have h1 : insert_one_video st path pr1 =
        { video_path_db := aset st.video_path_db (video_name_of path) path,
          video_segments := aset st.video_segments (video_name_of path) pr1 } := by
      simp [insert_one_video, hlk]
    refine ⟨?_, ?_, ?_⟩
    · rw [h1]
      simp [insert_one_video, alookup_aset_self]
    · rw [h1]
      simp [alookup_aset_self]
    · rw [h1]
      simp only
      rw [countP_aset_of_none _ _ _ hnone, countP_zero_of_lookup_none _ _ hnone]

theorem c7_idempotent_witness :
    ({ video_path_db := [], video_segments := [] } :
        RAGState).video_segments.countP
      (fun p => p.1 = video_name_of "/videos/a.mp4") ≤ 1 ∧
    (insert_one_video (insert_one_video { video_path_db := [], video_segments := [] }
        "/videos/a.mp4" [(0, c7_segment)]) "/videos/a.mp4" [] =
      insert_one_video { video_path_db := [], video_segments := [] }
        "/videos/a.mp4" [(0, c7_segment)] ∧
    (alookup (insert_one_video { video_path_db := [], video_segments := [] }
        "/videos/a.mp4" [(0, c7_segment)]).video_segments
      (video_name_of "/videos/a.mp4")).isSome = true ∧
    (insert_one_video { video_path_db := [], video_segments := [] }
        "/videos/a.mp4" [(0, c7_segment)]).video_segments.countP
      (fun p => p.1 = video_name_of "/videos/a.mp4") = 1) :=
  ⟨by decide,
   c7_idempotent_reinsert { video_path_db := [], video_segments := [] }
     "/videos/a.mp4" [(0, c7_segment)] [] (by decide)⟩

theorem c8_encode_requires_loaded (st : IBState) (encF : List String → List Int)
    (encQ : String → List Int) (batch : List String) (q : String) :
    (st.is_loaded = false →
      encode_video_segments encF st batch = (st, Except.error "ImageBind not loaded") ∧
      encode_string_query encQ st q = (st, Except.error "ImageBind not loaded")) ∧
    (st.is_loaded = true →
      (encode_video_segments encF st batch).2 = Except.ok (encF batch) ∧
      (encode_video_segments encF st batch).1.usage_count = st.usage_count + 1 ∧
      (encode_string_query encQ st q).2 = Except.ok (encQ q) ∧
      (encode_string_query encQ st q).1.usage_count = st.usage_count + 1) := by
  constructor
  · intro h
    simp [encode_video_segments, encode_string_query, h]
  · intro h
    simp [encode_video_segments, encode_string_query, h]

theorem c8_encode_requires_loaded_witness :
    (encode_video_segments (fun _ => [0]) c8_unloaded ["x.mp4"] =
      (c8_unloaded, Except.error "ImageBind not loaded") ∧
     encode_string_query (fun _ => [1]) c8_unloaded "q" =
      (c8_unloaded, Except.error "ImageBind not loaded")) ∧
    ((encode_video_segments (fun _ => [0]) c8_loaded ["x.mp4"]).2 =
      Except.ok ((fun _ => [0] : List String → List Int) ["x.mp4"]) ∧
     (encode_video_segments (fun _ => [0]) c8_loaded ["x.mp4"]).1.usage_count =
       c8_loaded.usage_count + 1 ∧
     (encode_string_query (fun _ => [1]) c8_loaded "q").2 =
      Except.ok ((fun _ => [1] : String → List Int) "q") ∧
     (encode_string_query (fun _ => [1]) c8_loaded "q").1.usage_count =
       c8_loaded.usage_count + 1) :=
  ⟨(c8_encode_requires_loaded c8_unloaded (fun _ => [0]) (fun _ => [1])
      ["x.mp4"] "q").1 rfl,
   (c8_encode_requires_loaded c8_loaded (fun _ => [0]) (fun _ => [1])
      ["x.mp4"] "q").2 rfl⟩

theorem alookup_stt_none {N : Nat} :
    ∀ (segs : List (Nat × ASROutcome)), N ∉ segs.map Prod.fst →
      alookup (speech_to_text_online segs) N = none := by
  intro segs
  induction segs with
  | nil => intro _; rfl
  | cons p rest ih =>
      intro h
      simp only [List.map_cons, List.mem_cons] at h
      push_neg at h
      simp only [speech_to_text_online, List.filterMap_cons]
      cases hp : process_single_segment p.2 with
      | error e =>
          simp only [hp]
          exact ih h.2
      | ok t =>
          simp only [hp]
          rw [alookup, if_neg (fun hh => h.1 hh.symm)]
          exact ih h.2

theorem stt_raises_lookup_none {N : Nat} :
    ∀ (segs : List (Nat × ASROutcome)), (segs.map Prod.fst).Nodup →
      (N, ASROutcome.raises) ∈ segs →
      alookup (speech_to_text_online segs) N = none := by
  intro segs
  induction segs with
  | nil => intro _ h; simp at h
  | cons p rest ih =>
      intro hnd hmem
      simp only [List.map_cons, List.nodup_cons] at hnd
      rcases List.mem_cons.mp hmem with heq | hmem'
      · rw [← heq] at hnd ⊢
        simp only [speech_to_text_online, List.filterMap_cons, process_single_segment]
        exact alookup_stt_none _ hnd.1
      · have hN : N ∈ rest.map Prod.fst := by
          have := List.mem_map_of_mem Prod.fst hmem'
          simpa using this
        have hp1 : p.1 ≠ N := fun hh => hnd.1 (hh ▸ hN)
        simp only [speech_to_text_online, List.filterMap_cons]
        cases hp : process_single_segment p.2 with
        | error e =>
            simp only [hp]
            exact ih hnd.2 hmem'
        | ok t =>
            simp only [hp]
            rw [alookup, if_neg hp1]
            exact ih hnd.2 hmem'

theorem exceptMapM_error_of_mem {α β : Type} (f : α → Except String β) {x : α} {e0 : String} :
    ∀ (xs : List α), x ∈ xs → f x = Except.error e0 →
      ∃ e, exceptMapM f xs = Except.error e := by
  intro xs
  induction xs with
  | nil => intro h; simp at h
  | cons y ys ih =>
      intro hmem hfx
      rcases List.mem_cons.mp hmem with rfl | hmem'
      · exact ⟨e0, by simp [exceptMapM, hfx]⟩
      · cases hy : f y with
        | error e => exact ⟨e, by simp [exceptMapM, hy]⟩
        | ok b =>
            obtain ⟨e, he⟩ := ih hmem' hfx
            exact ⟨e, by simp [exceptMapM, hy, he]⟩

theorem segment_caption_runtime_error (indices : List Nat)
    (transcripts : List (Nat × String)) (capOut : Nat → CaptionOutcome)
    {N : Nat} (hmem : N ∈ indices) (hnone : alookup transcripts N = none) :
    segment_caption indices transcripts capOut = Except.error "RuntimeError" := by
  have hf : lookup_transcript transcripts N = Except.error "KeyError" := by
    simp [lookup_transcript, hnone]
  obtain ⟨e, he⟩ := exceptMapM_error_of_mem (lookup_transcript transcripts) indices hmem hf
  simp [segment_caption, segment_caption_async, he]

theorem map_fst_pair_asr (asrOut : Nat → ASROutcome) (segs : List (Nat × String)) :
    (segs.map (fun p => (p.1, asrOut p.1))).map Prod.fst = segs.map Prod.fst := by
  induction segs with
  | nil => rfl
  | cons p rest ih => simp only [List.map_cons, ih]

theorem c1_transcription_failure_amended (path : String)
    (segs : List (Nat × String)) (times : List (Nat × List Nat))
    (asrOut : Nat → ASROutcome) (capOut : Nat → CaptionOutcome)
    (N : Nat) (nm : String) (now : Nat) (doc0 : StatusDoc)
    (hmem : (N, nm) ∈ segs)
    (hnodup : (segs.map Prod.fst).Nodup)
    (hraise : asrOut N = ASROutcome.raises) :
    alookup (speech_to_text_online (segs.map (fun p => (p.1, asrOut p.1)))) N = none ∧
    run_pipeline_one ⟨path, segs, times, asrOut, capOut⟩ = Except.error "RuntimeError" ∧
    dget ((index_video_worker_process now doc0
        [⟨path, segs, times, asrOut, capOut⟩]).1.indexing_status.getD []) "status" =
      some "error" := by
  have hmem' : (N, ASROutcome.raises) ∈ segs.map (fun p => (p.1, asrOut p.1)) := by
    have := List.mem_map_of_mem (fun p => (p.1, asrOut p.1)) hmem
    simpa [hraise] using this
  have hnd' : ((segs.map (fun p => (p.1, asrOut p.1))).map Prod.fst).Nodup := by
    rw [map_fst_pair_asr]; exact hnodup
  have h1 : alookup (speech_to_text_online (segs.map (fun p => (p.1, asrOut p.1)))) N =
      none := stt_raises_lookup_none _ hnd' hmem'
  have hNidx : N ∈ segs.map Prod.fst := by
    have := List.mem_map_of_mem Prod.fst hmem
    simpa using this
  have h2 : run_pipeline_one ⟨path, segs, times, asrOut, capOut⟩ =
      Except.error "RuntimeError" := by
    have hsc := segment_caption_runtime_error (segs.map Prod.fst)
      (speech_to_text_online (segs.map (fun p => (p.1, asrOut p.1)))) capOut hNidx h1
    simp only [run_pipeline_one, hsc]
  refine ⟨h1, h2, ?_⟩
  simp only [index_video_worker_process, run_jobs, h2]
  simp only [update_session_status, Option.getD_some]
  exact dget_dupdate3_fst _ _ _ _ _ _ _ (by decide) (by decide)

theorem c1_counterexample :
    dget ((index_video_worker_process 100 (initial_status_doc 1 50)
        [c1_job]).1.indexing_status.getD []) "status" = some "error" ∧
    alookup (speech_to_text_online (c1_job.index2name.map
      (fun p => (p.1, c1_job.asrOut p.1)))) 1 = none ∧
    ¬(dget ((index_video_worker_process 100 (initial_status_doc 1 50)
        [c1_job]).1.indexing_status.getD []) "status" = some "completed" ∧
      alookup (speech_to_text_online (c1_job.index2name.map
        (fun p => (p.1, c1_job.asrOut p.1)))) 1 = some "") := by
  decide

theorem c1_transcription_failure_witness :
    ((1, "abc-30-60") ∈ c1_job.index2name ∧
     (c1_job.index2name.map Prod.fst).Nodup ∧
     c1_job.asrOut 1 = ASROutcome.raises) ∧
    (alookup (speech_to_text_online (c1_job.index2name.map
        (fun p => (p.1, c1_job.asrOut p.1)))) 1 = none ∧
     run_pipeline_one c1_job = Except.error "RuntimeError" ∧
     dget ((index_video_worker_process 100 (initial_status_doc 1 50)
        [c1_job]).1.indexing_status.getD []) "status" = some "error") :=
  ⟨⟨by decide, by decide, by decide⟩,
   c1_transcription_failure_amended "/videos/abc.mp4" c1_job.index2name c1_job.times
     c1_job.asrOut c1_job.capOut 1 "abc-30-60" 100 (initial_status_doc 1 50)
     (by decide) (by decide) (by decide)⟩

theorem c3_caption_failure_scenario (c0 c2 : String) :
    dget ((index_video_worker_process 100 (initial_status_doc 1 50)
        [c3_job c0 c2]).1.indexing_status.getD []) "status" = some "completed" ∧
    segment_caption [0, 1, 2]
        (speech_to_text_online ((c3_job c0 c2).index2name.map
          (fun p => (p.1, (c3_job c0 c2).asrOut p.1))))
        (c3_job c0 c2).capOut =
      Except.ok [(0, clean_caption c0), (1, ""), (2, clean_caption c2)] ∧
    run_pipeline_one (c3_job c0 c2) = Except.ok
      [(0, { content := "Caption:\n" ++ clean_caption c0 ++ "\nTranscript:\n" ++
               "speech 0" ++ "\n\n",
             time := "0-30", transcript := "speech 0", frame_times := [0, 10, 20] }),
       (1, { content := "Caption:\n\nTranscript:\nspeech 1\n\n",
             time := "30-60", transcript := "speech 1", frame_times := [30, 40, 50] }),
       (2, { content := "Caption:\n" ++ clean_caption c2 ++ "\nTranscript:\n" ++
               "speech 2" ++ "\n\n",
             time := "60-90", transcript := "speech 2", frame_times := [60, 70, 80] })] ∧
    get_indexed_videos (index_video_worker_process 100 (initial_status_doc 1 50)
        [c3_job c0 c2]).1 = ["/videos/abc.mp4"] := by
  refine ⟨rfl, rfl, rfl, rfl⟩

end VideoRAG
